import Mathlib

/-!
Verification of the kalk parser (src/kalk/src/parser.rs).

The parser is embedded shallowly: the mutable `Context` of the Rust code
becomes an explicit state record threaded through every parsing function,
and every fallible operation returns `Except Fault (α × Context)`.
Out-of-bounds token indexing (a Rust panic) is modelled as the distinct
fault `Fault.indexOutOfBounds`, so that "parser panics" and "parser
returns a CalcError" are distinguishable outcomes.

The recursive-descent functions of parser.rs are mutually recursive and
the while-loops become tail-recursive helpers; termination is ensured by
a fuel parameter.  `mkP fuel` packages all parsing functions at a given
fuel; every call inside a body uses the functions at the predecessor
fuel, so the family is definable by plain structural recursion on `Nat`
and reduces in the kernel.
-/

namespace Kalk

/-- Modelled from the spec: lexer.rs is not under src/.  The closed set of
token kinds, from spec section 3 (identifier, numeric literal, the
operators, grouping delimiters including the ceil/floor brackets and the
absolute-value pipe, equals, comma, the degree/radian angle-unit
suffixes, and the end marker), matching the names used by parser.rs. -/
inductive TokenKind where
  | Identifier
  | Literal
  | Plus
  | Minus
  | Star
  | Slash
  | Power
  | Exclamation
  | Equals
  | Comma
  | OpenParenthesis
  | ClosedParenthesis
  | Pipe
  | OpenCeil
  | ClosedCeil
  | OpenFloor
  | ClosedFloor
  | Deg
  | Rad
  | EOF
  deriving DecidableEq, Repr

/-- Modelled from the spec: the angle-unit suffix tokens are exactly the
degree and radian markers (spec sections 3 and 4.1: "Any primary may be
immediately followed by an angle-unit token"). -/
def TokenKind.is_unit : TokenKind → Bool
  | TokenKind.Deg => true
  | TokenKind.Rad => true
  | _ => false

/-- A token: kind plus raw text value (spec section 3). -/
structure Token where
  kind : TokenKind
  value : String
  deriving DecidableEq, Repr

/-- Expression AST nodes, as used by parser.rs (ast.rs is not under src/;
the variant set is from spec section 3 and the constructor uses in
parser.rs).  Binary and Unary store the operator as its TokenKind,
exactly as parser.rs does. -/
inductive Expr where
  | Literal (v : String)
  | Binary (l : Expr) (op : TokenKind) (r : Expr)
  | Unary (op : TokenKind) (e : Expr)
  | Var (name : String)
  | FnCall (name : String) (args : List Expr)
  | Group (e : Expr)
  | Unit (e : Expr) (u : TokenKind)

/-- Statement AST nodes (spec section 3, constructor uses in parser.rs). -/
inductive Stmt where
  | Expr (e : Expr)
  | VarDecl (name : String) (e : Expr)
  | FnDecl (name : String) (params : List String) (body : Expr)

/-- Mathematical unit used in calculations (enum Unit in parser.rs;
renamed AngleUnit here because Lean already has a builtin Unit). -/
inductive AngleUnit where
  | Radians
  | Degrees
  deriving DecidableEq, Repr

/-- Error that occured during parsing or evaluation (enum CalcError in
parser.rs). -/
inductive CalcError where
  | IncorrectAmountOfArguments (expected : Nat) (name : String) (actual : Nat)
  | InvalidNumberLiteral (s : String)
  | InvalidOperator
  | InvalidUnit
  | UnexpectedToken (kind : TokenKind)
  | UndefinedFn (name : String)
  | UndefinedVar (name : String)
  | Unknown
  deriving DecidableEq, Repr

/-- Possible non-value outcomes of a parsing function in this embedding:
a structured CalcError (the Rust Err path), an out-of-bounds token index
(a Rust panic in peek/previous/advance), an empty identifier string fed
to the character splitter (a Rust unwrap panic), the explicit panic call
in parse_group_fn, or fuel exhaustion of the embedding (no Rust
counterpart; only ensures termination). -/
inductive Fault where
  | calcError (e : CalcError)
  | indexOutOfBounds (i : Nat)
  | emptyIdentifier
  | internalPanic
  | outOfFuel
  deriving DecidableEq, Repr

/-- Modelled from the spec: symbol_table.rs is not under src/.  The
Symbol Environment is a mapping from a name key (variable name, or
name ++ "()" for functions) to a stored declaration; insertion
overwrites, keys are unique (spec sections 2, 3).  Here it is an
association list with overwrite-on-insert. -/
structure SymbolTable where
  entries : List (String × Stmt)

/-- Lookup of a key in the association list of a symbol table. -/
def lookupEntry : List (String × Stmt) → String → Option Stmt
  | [], _ => none
  | (k, v) :: rest, key => if k == key then some v else lookupEntry rest key

/-- Modelled from the spec: Symbol Environment lookup by key. -/
def SymbolTable.lookup (st : SymbolTable) (key : String) : Option Stmt :=
  lookupEntry st.entries key

/-- Modelled from the spec: insertion overwrites the previous entry for
the same key (spec section 3: "Symbol Environment keys are unique per
(name, role) pair; insertion overwrites"). -/
def SymbolTable.insert (st : SymbolTable) (key : String) (stmt : Stmt) : SymbolTable :=
  SymbolTable.mk ((key, stmt) :: st.entries.filter (fun p => p.1 != key))

/-- Modelled from the spec: a name is a known function when the key
name ++ "()" is present (spec section 3). -/
def SymbolTable.contains_fn (st : SymbolTable) (name : String) : Bool :=
  (st.lookup (name ++ "()")).isSome

/-- Modelled from the spec: a name is a known variable when the key is
present under the plain name (spec section 3). -/
def SymbolTable.contains_var (st : SymbolTable) (name : String) : Bool :=
  (st.lookup name).isSome

/-- Modelled from the spec: a fresh Symbol Environment is empty. -/
def SymbolTable.new : SymbolTable :=
  SymbolTable.mk []

/-- Struct containing the current state of the parser (struct Context in
parser.rs): the token sequence, the cursor position, the symbol table
and the configured angle unit. -/
structure Context where
  tokens : List Token
  pos : Nat
  symbol_table : SymbolTable
  angle_unit : AngleUnit

/-- Context.new of parser.rs: empty token list, cursor at 0, fresh
symbol table, radians. -/
def Context.new : Context :=
  Context.mk [] 0 SymbolTable.new AngleUnit.Radians

/-- Result type of a parsing function: either a value together with the
updated context, or a fault. -/
abbrev PRes (α : Type) := Except Fault (α × Context)

/-- is_at_end of parser.rs: cursor at or beyond the end of the token
sequence, or looking at the EOF marker. -/
def is_at_end (ctx : Context) : Bool :=
  match ctx.tokens.get? ctx.pos with
  | none => true
  | some t => t.kind == TokenKind.EOF

/-- peek of parser.rs: the token at the cursor; indexing out of bounds
is a panic in Rust, a Fault here. -/
def peek (ctx : Context) : Except Fault Token :=
  match ctx.tokens.get? ctx.pos with
  | some t => Except.ok t
  | none => Except.error (Fault.indexOutOfBounds ctx.pos)

/-- peek_next of parser.rs: the token one past the cursor. -/
def peek_next (ctx : Context) : Except Fault Token :=
  match ctx.tokens.get? (ctx.pos + 1) with
  | some t => Except.ok t
  | none => Except.error (Fault.indexOutOfBounds (ctx.pos + 1))

/-- advance of parser.rs: increment the cursor and return the token that
was at the old cursor position (pos += 1; previous).  The out-of-bounds
read of previous at tokens[pos - 1] is the Fault case. -/
def advance (ctx : Context) : Except Fault (Token × Context) :=
  match ctx.tokens.get? ctx.pos with
  | some t => Except.ok (t, { ctx with pos := ctx.pos + 1 })
  | none => Except.error (Fault.indexOutOfBounds ctx.pos)

/-- match_token of parser.rs: false at end of input, otherwise compares
the kind of the token at the cursor. -/
def match_token (ctx : Context) (kind : TokenKind) : Bool :=
  match ctx.tokens.get? ctx.pos with
  | none => false
  | some t => if t.kind == TokenKind.EOF then false else t.kind == kind

/-- consume of parser.rs: advance when the cursor token has the wanted
kind, otherwise report UnexpectedToken with the wanted kind. -/
def consume (ctx : Context) (kind : TokenKind) : Except Fault (Token × Context) :=
  if match_token ctx kind then advance ctx
  else Except.error (Fault.calcError (CalcError.UnexpectedToken kind))

/-- The opener-to-builtin-name match at the top of parse_group_fn in
parser.rs; the default arm is the explicit Rust panic. -/
def group_fn_name : TokenKind → Except Fault String
  | TokenKind.Pipe => Except.ok "abs"
  | TokenKind.OpenCeil => Except.ok "ceil"
  | TokenKind.OpenFloor => Except.ok "floor"
  | _ => Except.error Fault.internalPanic

/-- The parameter-extraction loop of parse_identifier_stmt in parser.rs:
keep, in order, the names of the arguments that are bare Var nodes and
silently drop every other argument. -/
def extract_params : List Expr → List String
  | [] => []
  | Expr.Var v :: rest => v :: extract_params rest
  | _ :: rest => extract_params rest

/-- The character-splitting loop at the bottom of parse_identifier in
parser.rs: an unknown identifier becomes a left-associative implicit
multiplication chain of its single-character variable references. -/
def split_chars (c : Char) (cs : List Char) : Expr :=
  List.foldl (fun left ch => Expr.Binary left TokenKind.Star (Expr.Var ch.toString))
    (Expr.Var c.toString) cs

/-- The bundle of all recursive parsing functions of parser.rs at one
fuel level.  The two while-loops (parse_sum, parse_factor), the
argument-list loop of parse_identifier and the statement loop of parse
appear as explicit tail-recursive fields. -/
structure ParserFns where
  parse_expr : Context → Except Fault (Expr × Context)
  parse_sum : Context → Except Fault (Expr × Context)
  sum_loop : Expr → Context → Except Fault (Expr × Context)
  parse_factor : Context → Except Fault (Expr × Context)
  factor_loop : Expr → Context → Except Fault (Expr × Context)
  parse_unary : Context → Except Fault (Expr × Context)
  parse_exponent : Context → Except Fault (Expr × Context)
  parse_factorial : Context → Except Fault (Expr × Context)
  parse_primary : Context → Except Fault (Expr × Context)
  parse_group : Context → Except Fault (Expr × Context)
  parse_group_fn : Context → Except Fault (Expr × Context)
  parse_identifier : Context → Except Fault (Expr × Context)
  parse_call_args : Context → Except Fault (List Expr × Context)
  args_loop : List Expr → Context → Except Fault (List Expr × Context)
  parse_var_decl_stmt : Context → Except Fault (Stmt × Context)
  parse_identifier_stmt : Context → Except Fault (Stmt × Context)
  parse_stmt : Context → Except Fault (Stmt × Context)
  stmts_loop : List Stmt → Context → Except Fault (List Stmt × Context)

/-- The zero-fuel bundle: every function reports fuel exhaustion. -/
def failFns : ParserFns where
  parse_expr := fun _ => Except.error Fault.outOfFuel
  parse_sum := fun _ => Except.error Fault.outOfFuel
  sum_loop := fun _ _ => Except.error Fault.outOfFuel
  parse_factor := fun _ => Except.error Fault.outOfFuel
  factor_loop := fun _ _ => Except.error Fault.outOfFuel
  parse_unary := fun _ => Except.error Fault.outOfFuel
  parse_exponent := fun _ => Except.error Fault.outOfFuel
  parse_factorial := fun _ => Except.error Fault.outOfFuel
  parse_primary := fun _ => Except.error Fault.outOfFuel
  parse_group := fun _ => Except.error Fault.outOfFuel
  parse_group_fn := fun _ => Except.error Fault.outOfFuel
  parse_identifier := fun _ => Except.error Fault.outOfFuel
  parse_call_args := fun _ => Except.error Fault.outOfFuel
  args_loop := fun _ _ => Except.error Fault.outOfFuel
  parse_var_decl_stmt := fun _ => Except.error Fault.outOfFuel
  parse_identifier_stmt := fun _ => Except.error Fault.outOfFuel
  parse_stmt := fun _ => Except.error Fault.outOfFuel
  stmts_loop := fun _ _ => Except.error Fault.outOfFuel

/-- The parsing functions of parser.rs at a given fuel.  Every body is a
direct transcription of the corresponding Rust function; recursive calls
use the bundle at the predecessor fuel. -/
def mkP : Nat → ParserFns
  | 0 => failFns
  | n + 1 =>
    { parse_expr := fun ctx => (mkP n).parse_sum ctx
      -- parse_sum: parse a factor, then the +/- while-loop.
      parse_sum := fun ctx => do
        let (left, c1) ← (mkP n).parse_factor ctx
        (mkP n).sum_loop left c1
      -- The while-loop of parse_sum.  Rust reads op via peek and then
      -- advances; advance returns that same token.
      sum_loop := fun left ctx =>
        if match_token ctx TokenKind.Plus || match_token ctx TokenKind.Minus then do
          let (op, c1) ← advance ctx
          let (right, c2) ← (mkP n).parse_factor c1
          (mkP n).sum_loop (Expr.Binary left op.kind right) c2
        else Except.ok (left, ctx)
      -- parse_factor: parse a unary, then the * / implicit-mult loop.
      parse_factor := fun ctx => do
        let (left, c1) ← (mkP n).parse_unary ctx
        (mkP n).factor_loop left c1
      -- The while-loop of parse_factor.  On Identifier or Literal the
      -- operator is Star and no token is consumed (implicit
      -- multiplication); otherwise the operator token is consumed.
      factor_loop := fun left ctx =>
        if match_token ctx TokenKind.Star || match_token ctx TokenKind.Slash
            || match_token ctx TokenKind.Identifier || match_token ctx TokenKind.Literal then do
          let t ← peek ctx
          match t.kind with
          | TokenKind.Identifier | TokenKind.Literal => do
            let (right, c2) ← (mkP n).parse_unary ctx
            (mkP n).factor_loop (Expr.Binary left TokenKind.Star right) c2
          | _ => do
            let (op, c1) ← advance ctx
            let (right, c2) ← (mkP n).parse_unary c1
            (mkP n).factor_loop (Expr.Binary left op.kind right) c2
        else Except.ok (left, ctx)
      -- parse_unary: prefix minus wraps a recursively parsed unary.
      parse_unary := fun ctx =>
        if match_token ctx TokenKind.Minus then do
          let (op, c1) ← advance ctx
          let (e, c2) ← (mkP n).parse_unary c1
          Except.ok (Expr.Unary op.kind e, c2)
        else (mkP n).parse_exponent ctx
      -- parse_exponent: right-associative via the recursive call for
      -- the right operand.
      parse_exponent := fun ctx => do
        let (left, c1) ← (mkP n).parse_factorial ctx
        if match_token c1 TokenKind.Power then do
          let (op, c2) ← advance c1
          let (right, c3) ← (mkP n).parse_exponent c2
          Except.ok (Expr.Binary left op.kind right, c3)
        else Except.ok (left, c1)
      -- parse_factorial: optional postfix exclamation mark.
      parse_factorial := fun ctx => do
        let (e, c1) ← (mkP n).parse_primary ctx
        if match_token c1 TokenKind.Exclamation then do
          let (_, c2) ← advance c1
          Except.ok (Expr.Unary TokenKind.Exclamation e, c2)
        else Except.ok (e, c1)
      -- parse_primary: dispatch on the cursor token, then the optional
      -- angle-unit wrap.
      parse_primary := fun ctx => do
        let t ← peek ctx
        let (e, c1) ← (match t.kind with
          | TokenKind.OpenParenthesis => (mkP n).parse_group ctx
          | TokenKind.Pipe | TokenKind.OpenCeil | TokenKind.OpenFloor =>
            (mkP n).parse_group_fn ctx
          | TokenKind.Identifier => (mkP n).parse_identifier ctx
          | _ => do
            let (tok, c) ← advance ctx
            Except.ok (Expr.Literal tok.value, c))
        if is_at_end c1 then Except.ok (e, c1)
        else do
          let t2 ← peek c1
          if t2.kind.is_unit then do
            let (u, c2) ← advance c1
            Except.ok (Expr.Unit e u.kind, c2)
          else Except.ok (e, c1)
      -- parse_group: consume the open parenthesis, wrap in Group,
      -- require the closing parenthesis.
      parse_group := fun ctx => do
        let (_, c1) ← advance ctx
        let (e, c2) ← (mkP n).parse_expr c1
        let (_, c3) ← consume c2 TokenKind.ClosedParenthesis
        Except.ok (Expr.Group e, c3)
      -- parse_group_fn: consume the opener, map it to abs/ceil/floor,
      -- parse the inner expression, then advance unconditionally
      -- (the closing token is never checked).
      parse_group_fn := fun ctx => do
        let (t, c1) ← advance ctx
        let name ← group_fn_name t.kind
        let (e, c2) ← (mkP n).parse_expr c1
        let (_, c3) ← advance c2
        Except.ok (Expr.FnCall name [e], c3)
      -- parse_identifier: the four-way resolution.  Rust nests the
      -- known-function test inside the literal test and falls through
      -- when either fails; since a Literal token is never an
      -- OpenParenthesis token, the flattened guards are equivalent.
      parse_identifier := fun ctx => do
        let (identifier, c1) ← advance ctx
        if match_token c1 TokenKind.Literal
            && SymbolTable.contains_fn c1.symbol_table identifier.value then do
          let (lit, c2) ← advance c1
          Except.ok (Expr.FnCall identifier.value [Expr.Literal lit.value], c2)
        else if match_token c1 TokenKind.OpenParenthesis then do
          let (args, c2) ← (mkP n).parse_call_args c1
          Except.ok (Expr.FnCall identifier.value args, c2)
        else if SymbolTable.contains_var c1.symbol_table identifier.value then
          Except.ok (Expr.Var identifier.value, c1)
        else
          match identifier.value.toList with
          | [] => Except.error Fault.emptyIdentifier
          | c :: cs => Except.ok (split_chars c cs, c1)
      -- The argument-list block of parse_identifier: consume the open
      -- parenthesis, parse the first argument, run the comma loop,
      -- require the closing parenthesis.
      parse_call_args := fun ctx => do
        let (_, c1) ← advance ctx
        let (first, c2) ← (mkP n).parse_expr c1
        let (args, c3) ← (mkP n).args_loop [first] c2
        let (_, c4) ← consume c3 TokenKind.ClosedParenthesis
        Except.ok (args, c4)
      -- The comma while-loop of parse_identifier.
      args_loop := fun acc ctx =>
        if match_token ctx TokenKind.Comma then do
          let (_, c1) ← advance ctx
          let (e, c2) ← (mkP n).parse_expr c1
          (mkP n).args_loop (acc ++ [e]) c2
        else Except.ok (acc, ctx)
      -- parse_var_decl_stmt: identifier, equals sign, expression.
      parse_var_decl_stmt := fun ctx => do
        let (identifier, c1) ← advance ctx
        let (_, c2) ← advance c1
        let (e, c3) ← (mkP n).parse_expr c2
        Except.ok (Stmt.VarDecl identifier.value e, c3)
      -- parse_identifier_stmt: speculative primary parse, then either
      -- the function-declaration reinterpretation (on a following
      -- equals sign) or rewind-and-reparse as a plain expression.
      parse_identifier_stmt := fun ctx => do
        let began_at := ctx.pos
        let (primary, c1) ← (mkP n).parse_primary ctx
        let te ← peek c1
        if te.kind == TokenKind.Equals then do
          let (_, c2) ← advance c1
          let (body, c3) ← (mkP n).parse_expr c2
          match primary with
          | Expr.FnCall identifier parameters =>
            let fn_decl := Stmt.FnDecl identifier (extract_params parameters) body
            Except.ok (fn_decl,
              { c3 with symbol_table :=
                  SymbolTable.insert c3.symbol_table (identifier ++ "()") fn_decl })
          | _ => Except.error (Fault.calcError CalcError.Unknown)
        else do
          let (e, c2) ← (mkP n).parse_expr { c1 with pos := began_at }
          Except.ok (Stmt.Expr e, c2)
      -- parse_stmt: dispatch on the first two tokens.
      parse_stmt := fun ctx =>
        if match_token ctx TokenKind.Identifier then do
          let tn ← peek_next ctx
          match tn.kind with
          | TokenKind.Equals => (mkP n).parse_var_decl_stmt ctx
          | TokenKind.OpenParenthesis => (mkP n).parse_identifier_stmt ctx
          | _ => do
            let (e, c1) ← (mkP n).parse_expr ctx
            Except.ok (Stmt.Expr e, c1)
        else do
          let (e, c1) ← (mkP n).parse_expr ctx
          Except.ok (Stmt.Expr e, c1)
      -- The statement while-loop of parse.
      stmts_loop := fun acc ctx =>
        if is_at_end ctx then Except.ok (acc, ctx)
        else do
          let (s, c1) ← (mkP n).parse_stmt ctx
          (mkP n).stmts_loop (acc ++ [s]) c1 }

/-- parse of parser.rs, taking the already-lexed token sequence
(tokenization is out of scope per spec section 1): reset the cursor,
install the tokens, then parse statements until the end marker. -/
def parse (fuel : Nat) (context : Context) (tokens : List Token) : Except Fault (List Stmt × Context) :=
  (mkP fuel).stmts_loop [] { context with tokens := tokens, pos := 0 }

/-- parse_expr at a given fuel. -/
def parse_expr (fuel : Nat) (ctx : Context) : Except Fault (Expr × Context) :=
  (mkP fuel).parse_expr ctx

/-- parse_unary at a given fuel. -/
def parse_unary (fuel : Nat) (ctx : Context) : Except Fault (Expr × Context) :=
  (mkP fuel).parse_unary ctx

/-- The factor while-loop at a given fuel. -/
def factor_loop (fuel : Nat) (left : Expr) (ctx : Context) : Except Fault (Expr × Context) :=
  (mkP fuel).factor_loop left ctx

/-- parse_primary at a given fuel. -/
def parse_primary (fuel : Nat) (ctx : Context) : Except Fault (Expr × Context) :=
  (mkP fuel).parse_primary ctx

/-- parse_group_fn at a given fuel. -/
def parse_group_fn (fuel : Nat) (ctx : Context) : Except Fault (Expr × Context) :=
  (mkP fuel).parse_group_fn ctx

/-- parse_identifier at a given fuel. -/
def parse_identifier (fuel : Nat) (ctx : Context) : Except Fault (Expr × Context) :=
  (mkP fuel).parse_identifier ctx

/-- The argument-list block of parse_identifier at a given fuel. -/
def parse_call_args (fuel : Nat) (ctx : Context) : Except Fault (List Expr × Context) :=
  (mkP fuel).parse_call_args ctx

/-- parse_identifier_stmt at a given fuel. -/
def parse_identifier_stmt (fuel : Nat) (ctx : Context) : Except Fault (Stmt × Context) :=
  (mkP fuel).parse_identifier_stmt ctx

/-- parse_stmt at a given fuel. -/
def parse_stmt (fuel : Nat) (ctx : Context) : Except Fault (Stmt × Context) :=
  (mkP fuel).parse_stmt ctx

/-- Shorthand token constructor for the concrete inputs below. -/
def tkn (k : TokenKind) (v : String) : Token := Token.mk k v

/-- The spec-side description of the parameter extraction of C1: keep
exactly the arguments that are bare Var nodes, in order. -/
def bare_var_names (args : List Expr) : List String :=
  args.filterMap (fun e => match e with
    | Expr.Var v => some v
    | _ => none)

/-- Concrete input for C1's witness: the token sequence of f(x) = 1 + 2. -/
def c1w_tokens : List Token :=
  [tkn TokenKind.Identifier "f", tkn TokenKind.OpenParenthesis "", tkn TokenKind.Identifier "x",
   tkn TokenKind.ClosedParenthesis "", tkn TokenKind.Equals "", tkn TokenKind.Literal "1",
   tkn TokenKind.Plus "", tkn TokenKind.Literal "2", tkn TokenKind.EOF ""]

/-- Starting context for C1's witness. -/
def c1w_ctx : Context := Context.mk c1w_tokens 0 SymbolTable.new AngleUnit.Radians

/-- Body of the declaration parsed from c1w_tokens: 1 + 2. -/
def c1w_body : Expr := Expr.Binary (Expr.Literal "1") TokenKind.Plus (Expr.Literal "2")

/-- Declaration parsed from c1w_tokens. -/
def c1w_fn : Stmt := Stmt.FnDecl "f" ["x"] c1w_body

/-- Concrete input for C2's witness: the token sequence of f(1+2) + 3,
with f already declared as a function (so the statement is a call, not
a declaration). -/
def c2w_tokens : List Token :=
  [tkn TokenKind.Identifier "f", tkn TokenKind.OpenParenthesis "", tkn TokenKind.Literal "1",
   tkn TokenKind.Plus "", tkn TokenKind.Literal "2", tkn TokenKind.ClosedParenthesis "",
   tkn TokenKind.Plus "", tkn TokenKind.Literal "3", tkn TokenKind.EOF ""]

/-- Starting context for C2's witness: f is a known function. -/
def c2w_ctx : Context :=
  Context.mk c2w_tokens 0
    (SymbolTable.mk [("f()", Stmt.FnDecl "f" ["x"] (Expr.Literal "1"))]) AngleUnit.Radians

/-- Concrete input refuting C3: a lone prefix minus followed by the end
marker.  parse_primary's catch-all consumes the end marker itself as a
Literal, leaving the cursor one past it, with no backtracking involved
(the input holds no identifier, so the call/declaration disambiguation
is never entered). -/
def c3x_tokens : List Token := [tkn TokenKind.Minus "", tkn TokenKind.EOF ""]

/-- Concrete input refuting C4: the token sequence of f(x) = x f 2.
While the declaration body is parsed, f is not yet in the symbol table,
so "f 2" resolves as the implicit product of the unknown variable f and
the literal 2; the declaration of f() is inserted afterwards.  On a
second parse of the same tokens, f is a known function, so "f 2" now
resolves as the one-argument call f(2). -/
def c4x_tokens : List Token :=
  [tkn TokenKind.Identifier "f", tkn TokenKind.OpenParenthesis "", tkn TokenKind.Identifier "x",
   tkn TokenKind.ClosedParenthesis "", tkn TokenKind.Equals "", tkn TokenKind.Identifier "x",
   tkn TokenKind.Identifier "f", tkn TokenKind.Literal "2", tkn TokenKind.EOF ""]

/-- Body produced by the first parse of c4x_tokens: (x * f) * 2. -/
def c4x_body1 : Expr :=
  Expr.Binary (Expr.Binary (Expr.Var "x") TokenKind.Star (Expr.Var "f")) TokenKind.Star
    (Expr.Literal "2")

/-- Declaration produced by the first parse of c4x_tokens. -/
def c4x_fn1 : Stmt := Stmt.FnDecl "f" ["x"] c4x_body1

/-- Context left behind by the first parse of c4x_tokens. -/
def c4x_ctx1 : Context :=
  Context.mk c4x_tokens 8 (SymbolTable.mk [("f()", c4x_fn1)]) AngleUnit.Radians

/-- Body produced by the second parse of c4x_tokens: x * f(2). -/
def c4x_body2 : Expr :=
  Expr.Binary (Expr.Var "x") TokenKind.Star (Expr.FnCall "f" [Expr.Literal "2"])

/-- Declaration produced by the second parse of c4x_tokens. -/
def c4x_fn2 : Stmt := Stmt.FnDecl "f" ["x"] c4x_body2

/-- Context left behind by the second parse of c4x_tokens. -/
def c4x_ctx2 : Context :=
  Context.mk c4x_tokens 8 (SymbolTable.mk [("f()", c4x_fn2)]) AngleUnit.Radians

/-- A context with junk tokens and cursor but the fresh symbol table and
radians, for C4's witness. -/
def c4w_ctx : Context :=
  Context.mk [tkn TokenKind.Literal "9"] 5 SymbolTable.new AngleUnit.Radians

/-- Concrete input for C5's witness: the unknown two-character
identifier xy. -/
def c5w_tokens : List Token := [tkn TokenKind.Identifier "xy", tkn TokenKind.EOF ""]

/-- Starting context for C5's witness. -/
def c5w_ctx : Context := Context.mk c5w_tokens 0 SymbolTable.new AngleUnit.Radians

/-- Concrete input for C6's witness: the token sequence of 3 x. -/
def c6w_tokens : List Token :=
  [tkn TokenKind.Literal "3", tkn TokenKind.Identifier "x", tkn TokenKind.EOF ""]

/-- Context for C6's witness, with the cursor already past the literal 3
(the parsed left operand). -/
def c6w_ctx : Context := Context.mk c6w_tokens 1 SymbolTable.new AngleUnit.Radians

/-- Concrete input for C7: the token sequence of -2^2. -/
def c7a_tokens : List Token :=
  [tkn TokenKind.Minus "", tkn TokenKind.Literal "2", tkn TokenKind.Power "",
   tkn TokenKind.Literal "2", tkn TokenKind.EOF ""]

/-- Concrete input for C7: the token sequence of a^b^c. -/
def c7b_tokens : List Token :=
  [tkn TokenKind.Identifier "a", tkn TokenKind.Power "", tkn TokenKind.Identifier "b",
   tkn TokenKind.Power "", tkn TokenKind.Identifier "c", tkn TokenKind.EOF ""]

/-- Concrete input refuting C8: the token sequence of f(x) deg = 3.
The speculative primary parse wraps the call shape in a Unit node
because of the angle-unit suffix, so the declaration reinterpretation
sees a non-FnCall primary and returns CalcError.Unknown. -/
def c8x_tokens : List Token :=
  [tkn TokenKind.Identifier "f", tkn TokenKind.OpenParenthesis "", tkn TokenKind.Identifier "x",
   tkn TokenKind.ClosedParenthesis "", tkn TokenKind.Deg "deg", tkn TokenKind.Equals "",
   tkn TokenKind.Literal "3", tkn TokenKind.EOF ""]

/-- Starting context for C8's witness (statement level). -/
def c8x_ctx : Context := Context.mk c8x_tokens 0 SymbolTable.new AngleUnit.Radians

/-- Concrete input for C9: two opening pipes followed only by the end
marker. -/
def c9_tokens : List Token :=
  [tkn TokenKind.Pipe "", tkn TokenKind.Pipe "", tkn TokenKind.EOF ""]

/-- Concrete input for C10's witness: an absolute-value opener whose
inner expression is followed by a mismatched closing token (a closing
parenthesis instead of a pipe). -/
def c10w_tokens : List Token :=
  [tkn TokenKind.Pipe "", tkn TokenKind.Literal "1", tkn TokenKind.ClosedParenthesis "",
   tkn TokenKind.EOF ""]

/-- Starting context for C10's witness. -/
def c10w_ctx : Context := Context.mk c10w_tokens 0 SymbolTable.new AngleUnit.Radians

/-- Property of a parsing-function result relative to the starting
context: on success the token sequence, the symbol table and the angle
unit are unchanged (only the cursor moved); on failure the fault is not
CalcError.Unknown.  Every expression-level function of parser.rs has
this property: only parse_identifier_stmt writes the symbol table and
produces Unknown. -/
def StableFrom {α : Type} (ctx : Context) : Except Fault (α × Context) → Prop
  | Except.ok (_, c) =>
      c.tokens = ctx.tokens ∧ c.symbol_table = ctx.symbol_table ∧ c.angle_unit = ctx.angle_unit
  | Except.error f => f ≠ Fault.calcError CalcError.Unknown

/-- Bundled statement that every expression-level parsing function of
the bundle preserves tokens, symbol table and angle unit, and never
fails with CalcError.Unknown. -/
structure ExprStable (p : ParserFns) : Prop where
  hExpr : ∀ ctx, StableFrom ctx (p.parse_expr ctx)
  hSum : ∀ ctx, StableFrom ctx (p.parse_sum ctx)
  hSumLoop : ∀ left ctx, StableFrom ctx (p.sum_loop left ctx)
  hFactor : ∀ ctx, StableFrom ctx (p.parse_factor ctx)
  hFactorLoop : ∀ left ctx, StableFrom ctx (p.factor_loop left ctx)
  hUnary : ∀ ctx, StableFrom ctx (p.parse_unary ctx)
  hExponent : ∀ ctx, StableFrom ctx (p.parse_exponent ctx)
  hFactorial : ∀ ctx, StableFrom ctx (p.parse_factorial ctx)
  hPrimary : ∀ ctx, StableFrom ctx (p.parse_primary ctx)
  hGroup : ∀ ctx, StableFrom ctx (p.parse_group ctx)
  hGroupFn : ∀ ctx, StableFrom ctx (p.parse_group_fn ctx)
  hIdentifier : ∀ ctx, StableFrom ctx (p.parse_identifier ctx)
  hCallArgs : ∀ ctx, StableFrom ctx (p.parse_call_args ctx)
  hArgsLoop : ∀ acc ctx, StableFrom ctx (p.args_loop acc ctx)

theorem stableFrom_ok_self {α : Type} {ctx : Context} {a : α} :
    StableFrom ctx (Except.ok (a, ctx)) := ⟨rfl, rfl, rfl⟩

theorem stableFrom_trans {α : Type} {ctx c : Context} {r : Except Fault (α × Context)}
    (h1 : c.tokens = ctx.tokens ∧ c.symbol_table = ctx.symbol_table ∧ c.angle_unit = ctx.angle_unit)
    (h2 : StableFrom c r) : StableFrom ctx r := by
  cases r with
  | error f => exact h2
  | ok x =>
    obtain ⟨b, c2⟩ := x
    exact ⟨h2.1.trans h1.1, h2.2.1.trans h1.2.1, h2.2.2.trans h1.2.2⟩

theorem stableFrom_bind {α β : Type} {ctx : Context} {m : Except Fault (α × Context)}
    {f : α × Context → Except Fault (β × Context)}
    (hm : StableFrom ctx m)
    (hf : ∀ a c, m = Except.ok (a, c) → StableFrom c (f (a, c))) :
    StableFrom ctx (m >>= f) := by
  cases m with
  | error e => exact hm
  | ok x =>
    obtain ⟨a, c⟩ := x
    exact stableFrom_trans hm (hf a c rfl)

theorem stableFrom_bind_tok {α β : Type} {ctx : Context} {m : Except Fault α}
    {f : α → Except Fault (β × Context)}
    (hm : ∀ e, m = Except.error e → e ≠ Fault.calcError CalcError.Unknown)
    (hf : ∀ a, m = Except.ok a → StableFrom ctx (f a)) :
    StableFrom ctx (m >>= f) := by
  cases m with
  | error e => exact hm e rfl
  | ok a => exact hf a rfl

theorem peek_not_unknown {ctx : Context} {e : Fault} (h : peek ctx = Except.error e) :
    e ≠ Fault.calcError CalcError.Unknown := by
  unfold peek at h
  cases hg : ctx.tokens.get? ctx.pos with
  | none => rw [hg] at h; cases h; simp
  | some t => rw [hg] at h; cases h

theorem group_fn_name_not_unknown {k : TokenKind} {e : Fault}
    (h : group_fn_name k = Except.error e) :
    e ≠ Fault.calcError CalcError.Unknown := by
  cases k <;> simp [group_fn_name] at h <;> simp [h.symm]

theorem stableFrom_advance {ctx : Context} : StableFrom ctx (advance ctx) := by
  unfold advance
  cases hg : ctx.tokens.get? ctx.pos with
  | none => simp [StableFrom]
  | some t => exact ⟨rfl, rfl, rfl⟩

theorem stableFrom_consume {ctx : Context} {k : TokenKind} : StableFrom ctx (consume ctx k) := by
  unfold consume
  split
  · exact stableFrom_advance
  · simp [StableFrom]

theorem exprStable_mkP : ∀ n, ExprStable (mkP n) := by
  intro n
  induction n with
  | zero =>
    constructor <;> intros <;> simp [mkP, failFns, StableFrom]
  | succ n ih =>
    constructor
    · -- parse_expr
      intro ctx
      simp only [mkP]
      exact ih.hSum ctx
    · -- parse_sum
      intro ctx
      simp only [mkP]
      apply stableFrom_bind (ih.hFactor ctx)
      intro a c _
      exact ih.hSumLoop a c
    · -- sum_loop
      intro left ctx
      simp only [mkP]
      split
      · apply stableFrom_bind stableFrom_advance
        intro op c1 _
        apply stableFrom_bind (ih.hFactor c1)
        intro r c2 _
        exact ih.hSumLoop _ c2
      · exact stableFrom_ok_self
    · -- parse_factor
      intro ctx
      simp only [mkP]
      apply stableFrom_bind (ih.hUnary ctx)
      intro a c _
      exact ih.hFactorLoop a c
    · -- factor_loop
      intro left ctx
      simp only [mkP]
      split
      · apply stableFrom_bind_tok (fun _ h => peek_not_unknown h)
        intro t _
        obtain ⟨k, v⟩ := t
        cases k <;>
          first
            | (apply stableFrom_bind (ih.hUnary ctx)
               intro r c2 _
               exact ih.hFactorLoop _ c2)
            | (apply stableFrom_bind stableFrom_advance
               intro op c1 _
               apply stableFrom_bind (ih.hUnary c1)
               intro r c2 _
               exact ih.hFactorLoop _ c2)
      · exact stableFrom_ok_self
    · -- parse_unary
      intro ctx
      simp only [mkP]
      split
      · apply stableFrom_bind stableFrom_advance
        intro op c1 _
        apply stableFrom_bind (ih.hUnary c1)
        intro e c2 _
        exact stableFrom_ok_self
      · exact ih.hExponent ctx
    · -- parse_exponent
      intro ctx
      simp only [mkP]
      apply stableFrom_bind (ih.hFactorial ctx)
      intro left c1 _
      split
      · apply stableFrom_bind stableFrom_advance
        intro op c2 _
        apply stableFrom_bind (ih.hExponent c2)
        intro r c3 _
        exact stableFrom_ok_self
      · exact stableFrom_ok_self
    · -- parse_factorial
      intro ctx
      simp only [mkP]
      apply stableFrom_bind (ih.hPrimary ctx)
      intro e c1 _
      split
      · apply stableFrom_bind stableFrom_advance
        intro t c2 _
        exact stableFrom_ok_self
      · exact stableFrom_ok_self
    · -- parse_primary
      intro ctx
      simp only [mkP]
      apply stableFrom_bind_tok (fun _ h => peek_not_unknown h)
      intro t _
      apply stableFrom_bind
      · obtain ⟨k, v⟩ := t
        cases k <;>
          first
            | exact ih.hGroup ctx
            | exact ih.hGroupFn ctx
            | exact ih.hIdentifier ctx
            | (apply stableFrom_bind stableFrom_advance
               intro tok c _
               exact stableFrom_ok_self)
      · intro e c1 _
        split
        · exact stableFrom_ok_self
        · apply stableFrom_bind_tok (fun _ h => peek_not_unknown h)
          intro t2 _
          split
          · apply stableFrom_bind stableFrom_advance
            intro u c2 _
            exact stableFrom_ok_self
          · exact stableFrom_ok_self
    · -- parse_group
      intro ctx
      simp only [mkP]
      apply stableFrom_bind stableFrom_advance
      intro a c _
      apply stableFrom_bind (ih.hExpr c)
      intro b c2 _
      apply stableFrom_bind stableFrom_consume
      intro t c3 _
      exact stableFrom_ok_self
    · -- parse_group_fn
      intro ctx
      simp only [mkP]
      apply stableFrom_bind stableFrom_advance
      intro t c1 _
      apply stableFrom_bind_tok (fun _ h => group_fn_name_not_unknown h)
      intro nm _
      apply stableFrom_bind (ih.hExpr c1)
      intro e c2 _
      apply stableFrom_bind stableFrom_advance
      intro t2 c3 _
      exact stableFrom_ok_self
    · -- parse_identifier
      intro ctx
      simp only [mkP]
      apply stableFrom_bind stableFrom_advance
      intro identifier c1 _
      split
      · apply stableFrom_bind stableFrom_advance
        intro lit c2 _
        exact stableFrom_ok_self
      · split
        · apply stableFrom_bind (ih.hCallArgs c1)
          intro args c2 _
          exact stableFrom_ok_self
        · split
          · exact stableFrom_ok_self
          · split
            · simp [StableFrom]
            · exact stableFrom_ok_self
    · -- parse_call_args
      intro ctx
      simp only [mkP]
      apply stableFrom_bind stableFrom_advance
      intro a c1 _
      apply stableFrom_bind (ih.hExpr c1)
      intro first c2 _
      apply stableFrom_bind (ih.hArgsLoop [first] c2)
      intro args c3 _
      apply stableFrom_bind stableFrom_consume
      intro t c4 _
      exact stableFrom_ok_self
    · -- args_loop
      intro acc ctx
      simp only [mkP]
      split
      · apply stableFrom_bind stableFrom_advance
        intro t c1 _
        apply stableFrom_bind (ih.hExpr c1)
        intro e c2 _
        exact ih.hArgsLoop _ c2
      · exact stableFrom_ok_self

theorem except_bind_ok {ε α β : Type} (a : α) (f : α → Except ε β) :
    (Except.ok a >>= f : Except ε β) = f a := rfl

theorem except_error_bind {ε α β : Type} (e : ε) (f : α → Except ε β) :
    (Except.error e >>= f : Except ε β) = Except.error e := rfl

theorem advance_ok_of_get {ctx : Context} {t : Token} (h : ctx.tokens.get? ctx.pos = some t) :
    advance ctx = Except.ok (t, { ctx with pos := ctx.pos + 1 }) := by
  unfold advance
  rw [h]

theorem peek_ok_of_get {ctx : Context} {t : Token} (h : ctx.tokens.get? ctx.pos = some t) :
    peek ctx = Except.ok t := by
  unfold peek
  rw [h]

theorem peek_next_ok_of_get {ctx : Context} {t : Token}
    (h : ctx.tokens.get? (ctx.pos + 1) = some t) : peek_next ctx = Except.ok t := by
  unfold peek_next
  rw [h]

theorem get_of_peek_ok {ctx : Context} {t : Token} (h : peek ctx = Except.ok t) :
    ctx.tokens.get? ctx.pos = some t := by
  unfold peek at h
  cases hg : ctx.tokens.get? ctx.pos with
  | none => rw [hg] at h; cases h
  | some u => rw [hg] at h; cases h; rfl

theorem match_token_true_of_get {ctx : Context} {t : Token} {k : TokenKind}
    (h : ctx.tokens.get? ctx.pos = some t) (hk : t.kind = k) (hne : k ≠ TokenKind.EOF) :
    match_token ctx k = true := by
  unfold match_token
  rw [h]
  simp [hk, hne]

theorem match_token_false_of_get {ctx : Context} {t : Token} {k : TokenKind}
    (h : ctx.tokens.get? ctx.pos = some t) (hk : t.kind ≠ k) :
    match_token ctx k = false := by
  unfold match_token
  rw [h]
  by_cases he : t.kind = TokenKind.EOF <;> simp [he, hk]

theorem extract_params_eq (l : List Expr) : extract_params l = bare_var_names l := by
  induction l with
  | nil => rfl
  | cons e rest ih =>
    cases e <;> simp [extract_params, bare_var_names, List.filterMap_cons]
      <;> simpa [bare_var_names] using ih

/-- Claim C1: for every statement whose first two tokens are an
identifier and an open parenthesis, and whose speculatively parsed
call-shaped primary is immediately followed by an equals sign (and whose
right-hand-side expression parses), parse_stmt returns a FnDecl whose
parameter list consists exactly of the arguments of the speculative call
that are bare Var nodes, in order (non-Var arguments are silently
dropped), and that FnDecl is inserted into the returned symbol table
under the key name ++ "()" during parsing. -/
theorem claim_c1 (n : Nat) (ctx c1 c2 : Context) (t0 t1 te : Token) (id : String)
    (args : List Expr) (body : Expr)
    (h0 : ctx.tokens.get? ctx.pos = some t0) (hk0 : t0.kind = TokenKind.Identifier)
    (h1 : ctx.tokens.get? (ctx.pos + 1) = some t1) (hk1 : t1.kind = TokenKind.OpenParenthesis)
    (hprim : parse_primary n ctx = Except.ok (Expr.FnCall id args, c1))
    (hpe : c1.tokens.get? c1.pos = some te) (hke : te.kind = TokenKind.Equals)
    (hb : parse_expr n { c1 with pos := c1.pos + 1 } = Except.ok (body, c2)) :
    parse_stmt (n + 1 + 1) ctx
      = Except.ok (Stmt.FnDecl id (extract_params args) body,
          { c2 with
            symbol_table := SymbolTable.insert c2.symbol_table (id ++ "()")
              (Stmt.FnDecl id (extract_params args) body) })
    ∧ extract_params args = bare_var_names args
    ∧ SymbolTable.lookup
        (SymbolTable.insert c2.symbol_table (id ++ "()")
          (Stmt.FnDecl id (extract_params args) body)) (id ++ "()")
      = some (Stmt.FnDecl id (extract_params args) body) := by
  refine ⟨?_, extract_params_eq args, ?_⟩
  · unfold parse_primary at hprim
    unfold parse_expr at hb
    have hmt := match_token_true_of_get h0 hk0 (by simp)
    unfold parse_stmt
    simp only [mkP]
    rw [hmt]
    simp only [if_true]
    rw [peek_next_ok_of_get h1, except_bind_ok, hk1]
    rw [hprim, except_bind_ok]
    rw [peek_ok_of_get hpe, except_bind_ok]
    have hbe : (te.kind == TokenKind.Equals) = true := by simp [hke]
    rw [hbe]
    simp only [if_true]
    rw [advance_ok_of_get hpe, except_bind_ok]
    rw [hb, except_bind_ok]
  · simp [SymbolTable.lookup, SymbolTable.insert, lookupEntry]

/-- Witness for C1 at the concrete input f(x) = 1 + 2: the returned
statement is FnDecl f [x] (1 + 2) and the symbol table of the returned
context holds it under the key f(). -/
theorem claim_c1_witness :
    parse_stmt 32 c1w_ctx
      = Except.ok (c1w_fn,
          Context.mk c1w_tokens 8 (SymbolTable.mk [("f()", c1w_fn)]) AngleUnit.Radians) :=
  (claim_c1 30 c1w_ctx (Context.mk c1w_tokens 4 SymbolTable.new AngleUnit.Radians)
    (Context.mk c1w_tokens 8 SymbolTable.new AngleUnit.Radians)
    (tkn TokenKind.Identifier "f") (tkn TokenKind.OpenParenthesis "") (tkn TokenKind.Equals "")
    "f" [Expr.Var "x"] c1w_body
    rfl rfl rfl rfl rfl rfl rfl rfl).1

/-- Claim C2: for every statement beginning with an identifier and an
open parenthesis whose speculatively parsed primary is not followed by
an equals sign, the cursor is restored to the statement start and the
statement is re-parsed as a plain expression: parse_stmt returns exactly
the Stmt.Expr wrapping of what parse_expr produces when run directly
from the saved position on the same token sequence and symbol table
(the speculative primary parse changes neither). -/
theorem claim_c2 (n : Nat) (ctx c1 : Context) (t0 t1 te : Token) (prim : Expr)
    (h0 : ctx.tokens.get? ctx.pos = some t0) (hk0 : t0.kind = TokenKind.Identifier)
    (h1 : ctx.tokens.get? (ctx.pos + 1) = some t1) (hk1 : t1.kind = TokenKind.OpenParenthesis)
    (hprim : parse_primary n ctx = Except.ok (prim, c1))
    (hpe : c1.tokens.get? c1.pos = some te)
    (hke : te.kind ≠ TokenKind.Equals) :
    parse_stmt (n + 1 + 1) ctx
      = Except.map (fun r => (Stmt.Expr r.1, r.2)) (parse_expr n ctx) := by
  unfold parse_primary at hprim
  have hstable := (exprStable_mkP n).hPrimary ctx
  rw [hprim] at hstable
  obtain ⟨hta, hst, hau⟩ := hstable
  have hc1 : { c1 with pos := ctx.pos } = ctx := by
    cases c1
    cases ctx
    simp only at hta hst hau
    simp [hta, hst, hau]
  have hmt : match_token ctx TokenKind.Identifier = true :=
    match_token_true_of_get h0 hk0 (by simp)
  unfold parse_stmt parse_expr
  simp only [mkP]
  rw [hmt]
  simp only [if_true]
  rw [peek_next_ok_of_get h1, except_bind_ok, hk1]
  rw [hprim, except_bind_ok]
  rw [peek_ok_of_get hpe, except_bind_ok]
  have hbe : (te.kind == TokenKind.Equals) = false := by simp [hke]
  rw [hbe]
  simp only [Bool.false_eq_true, if_false]
  rw [hc1]
  cases hx : (mkP n).parse_expr ctx with
  | error e => simp [except_error_bind, Except.map]
  | ok r =>
    obtain ⟨e2, c2⟩ := r
    simp [except_bind_ok, Except.map]

/-- Witness for C2 at the concrete input f(1+2) + 3 with f a known
function: the statement parse equals the direct expression parse from
the statement start. -/
theorem claim_c2_witness :
    parse_stmt 32 c2w_ctx = Except.map (fun r => (Stmt.Expr r.1, r.2)) (parse_expr 30 c2w_ctx) :=
  claim_c2 30 c2w_ctx
    (Context.mk c2w_tokens 6
      (SymbolTable.mk [("f()", Stmt.FnDecl "f" ["x"] (Expr.Literal "1"))]) AngleUnit.Radians)
    (tkn TokenKind.Identifier "f") (tkn TokenKind.OpenParenthesis "") (tkn TokenKind.Plus "")
    (Expr.FnCall "f" [Expr.Binary (Expr.Literal "1") TokenKind.Plus (Expr.Literal "2")])
    rfl rfl rfl rfl rfl rfl (by decide)

/-- Counterexample to C3 as stated: on the input consisting of a prefix
minus followed directly by the end marker, parsing succeeds and leaves
the cursor at position 2, strictly past the end marker sitting at index
1, although no token of the input is an identifier, so the
call/declaration backtrack-then-replay is never entered. -/
theorem claim_c3_counterexample :
    parse 30 Context.new c3x_tokens
      = Except.ok ([Stmt.Expr (Expr.Unary TokenKind.Minus (Expr.Literal ""))],
          Context.mk c3x_tokens 2 SymbolTable.new AngleUnit.Radians)
    ∧ c3x_tokens.length = 2
    ∧ c3x_tokens.get? 1 = some (tkn TokenKind.EOF "")
    ∧ 1 < 2
    ∧ c3x_tokens.all (fun t => t.kind != TokenKind.Identifier) = true := by
  refine ⟨rfl, rfl, rfl, ?_, ?_⟩
  · decide
  · decide

/-- Claim C3 (amended): the token cursor, a natural number mirroring the
Rust usize, is never negative; the cursor can however advance past the
end marker even during normal, non-backtracking parsing (parse_primary's
catch-all arm consumes the end marker itself as a literal, and
parse_group_fn advances unconditionally past the inner expression), as
the counterexample shows. -/
theorem claim_c3_amended (fuel : Nat) (ctx : Context) (tokens : List Token)
    (stmts : List Stmt) (ctx2 : Context)
    (_h : parse fuel ctx tokens = Except.ok (stmts, ctx2)) : 0 ≤ ctx2.pos :=
  Nat.zero_le _

/-- Witness for the amended C3 at the concrete run of parse on the
minus-then-end-marker input. -/
theorem claim_c3_witness :
    0 ≤ (Context.mk c3x_tokens 2 SymbolTable.new AngleUnit.Radians).pos :=
  claim_c3_amended 30 Context.new c3x_tokens
    [Stmt.Expr (Expr.Unary TokenKind.Minus (Expr.Literal ""))]
    (Context.mk c3x_tokens 2 SymbolTable.new AngleUnit.Radians) rfl

/-- Counterexample to C4 as stated: parsing the token sequence of
f(x) = x f 2 twice, the second parse starting from the symbol-table
state the first parse left behind, produces structurally different
statement lists: the declaration body is (x * f) * 2 in the first parse
(f unknown while the body is parsed) and x * f(2) in the second (f now a
known function, so the literal-juxtaposition call rule fires). -/
theorem claim_c4_counterexample :
    parse 40 Context.new c4x_tokens = Except.ok ([c4x_fn1], c4x_ctx1)
    ∧ parse 40 c4x_ctx1 c4x_tokens = Except.ok ([c4x_fn2], c4x_ctx2)
    ∧ ([c4x_fn1] : List Stmt) ≠ [c4x_fn2] := by
  refine ⟨rfl, rfl, ?_⟩
  simp [c4x_fn1, c4x_fn2, c4x_body1, c4x_body2]

/-- Claim C4 (amended): the parse result is a function of the token
sequence, the symbol-table contents and the angle unit alone — two
parses of identical input from contexts agreeing on symbol table and
angle unit produce identical results (so re-parsing identical input is
idempotent exactly when the first parse leaves the symbol table
unchanged; a first parse that inserts a function declaration can change
the second parse, as the counterexample shows). -/
theorem claim_c4_amended (fuel : Nat) (ctx ctx2 : Context) (tokens : List Token)
    (hst : ctx2.symbol_table = ctx.symbol_table)
    (hau : ctx2.angle_unit = ctx.angle_unit) :
    parse fuel ctx2 tokens = parse fuel ctx tokens := by
  unfold parse
  cases ctx
  cases ctx2
  simp_all

/-- Witness for the amended C4: a context with junk tokens and cursor
but the same fresh symbol table parses c4x_tokens exactly as the fresh
context does. -/
theorem claim_c4_witness :
    parse 40 c4w_ctx c4x_tokens = parse 40 Context.new c4x_tokens :=
  claim_c4_amended 40 Context.new c4w_ctx c4x_tokens rfl rfl

/-- Claim C5: identifier resolution priority in parse_identifier.
After the identifier token is consumed: (1) if the next token is a
numeric literal and the identifier is a known function name, the result
is a single-argument FnCall with that literal as argument, consuming the
literal; (2) if the next token is an open parenthesis, the result is a
FnCall on the comma-separated argument list parsed by the argument-list
block; (3) otherwise, if the identifier is a known variable name, the
result is a bare Var reference consuming nothing further; (4) otherwise
an unknown identifier is split character by character into a
left-associative implicit-multiplication chain of single-character Var
references (a single-character identifier stays a bare Var, since
split_chars of a singleton is Var). -/
theorem claim_c5 (n : Nat) (ctx c1 : Context) (ident : Token)
    (hadv : advance ctx = Except.ok (ident, c1))
    (_hkind : ident.kind = TokenKind.Identifier) :
    (∀ t2, c1.tokens.get? c1.pos = some t2 → t2.kind = TokenKind.Literal →
      SymbolTable.contains_fn c1.symbol_table ident.value = true →
      parse_identifier (n + 1) ctx
        = Except.ok (Expr.FnCall ident.value [Expr.Literal t2.value],
            { c1 with pos := c1.pos + 1 }))
    ∧ (∀ t2, c1.tokens.get? c1.pos = some t2 → t2.kind = TokenKind.OpenParenthesis →
      parse_identifier (n + 1) ctx
        = Except.map (fun r => (Expr.FnCall ident.value r.1, r.2)) (parse_call_args n c1))
    ∧ ((match_token c1 TokenKind.Literal = false
          ∨ SymbolTable.contains_fn c1.symbol_table ident.value = false) →
      match_token c1 TokenKind.OpenParenthesis = false →
      SymbolTable.contains_var c1.symbol_table ident.value = true →
      parse_identifier (n + 1) ctx = Except.ok (Expr.Var ident.value, c1))
    ∧ ((match_token c1 TokenKind.Literal = false
          ∨ SymbolTable.contains_fn c1.symbol_table ident.value = false) →
      match_token c1 TokenKind.OpenParenthesis = false →
      SymbolTable.contains_var c1.symbol_table ident.value = false →
      ∀ c cs, ident.value.toList = c :: cs →
      parse_identifier (n + 1) ctx = Except.ok (split_chars c cs, c1)) := by
  refine ⟨?_, ?_, ?_, ?_⟩
  · intro t2 h2 hk2 hfn
    have hmt : match_token c1 TokenKind.Literal = true :=
      match_token_true_of_get h2 hk2 (by simp)
    unfold parse_identifier
    simp only [mkP]
    rw [hadv, except_bind_ok, hmt, hfn]
    simp only [Bool.and_self, if_true]
    rw [advance_ok_of_get h2, except_bind_ok]
  · intro t2 h2 hk2
    have hmtL : match_token c1 TokenKind.Literal = false :=
      match_token_false_of_get h2 (by rw [hk2]; simp)
    have hmtP : match_token c1 TokenKind.OpenParenthesis = true :=
      match_token_true_of_get h2 hk2 (by simp)
    unfold parse_identifier parse_call_args
    simp only [mkP]
    rw [hadv, except_bind_ok, hmtL]
    simp only [Bool.false_and, Bool.false_eq_true, if_false]
    rw [hmtP]
    simp only [if_true]
    cases hx : (mkP n).parse_call_args c1 with
    | error e => simp [except_error_bind, Except.map, hx]
    | ok r =>
      obtain ⟨args, c2⟩ := r
      simp [except_bind_ok, Except.map, hx]
  · intro hg1 hg2 hv
    unfold parse_identifier
    simp only [mkP]
    rw [hadv, except_bind_ok]
    have hg1x : (match_token c1 TokenKind.Literal
        && SymbolTable.contains_fn c1.symbol_table ident.value) = false := by
      rcases hg1 with h | h <;> simp [h]
    rw [hg1x]
    simp only [Bool.false_eq_true, if_false]
    rw [hg2]
    simp only [Bool.false_eq_true, if_false]
    rw [hv]
    simp only [if_true]
  · intro hg1 hg2 hv c cs hcs
    unfold parse_identifier
    simp only [mkP]
    rw [hadv, except_bind_ok]
    have hg1x : (match_token c1 TokenKind.Literal
        && SymbolTable.contains_fn c1.symbol_table ident.value) = false := by
      rcases hg1 with h | h <;> simp [h]
    rw [hg1x]
    simp only [Bool.false_eq_true, if_false]
    rw [hg2]
    simp only [Bool.false_eq_true, if_false]
    rw [hv]
    simp only [Bool.false_eq_true, if_false]
    rw [hcs]

/-- Witness for C5 at the concrete unknown identifier xy with an empty
symbol table: branch (4) fires and yields the chain x * y. -/
theorem claim_c5_witness :
    parse_identifier 31 c5w_ctx
      = Except.ok (split_chars 'x' ['y'],
          Context.mk c5w_tokens 1 SymbolTable.new AngleUnit.Radians) :=
  (claim_c5 30 c5w_ctx (Context.mk c5w_tokens 1 SymbolTable.new AngleUnit.Radians)
    (tkn TokenKind.Identifier "xy") rfl rfl).2.2.2
    (Or.inl rfl) rfl rfl 'x' ['y'] rfl

/-- Claim C6: at the factor level, whenever the next unconsumed token is
an identifier or a numeric literal, the factor loop inserts an implicit
multiplication: it continues as a Binary node with operator Star between
the operand parsed so far and the next unary operand, consuming no
operator token; consequently 3 x, 2 3 and x y all parse as
left-associative multiplication chains. -/
theorem claim_c6 (n : Nat) (left : Expr) (ctx : Context) (t : Token)
    (hp : ctx.tokens.get? ctx.pos = some t)
    (hk : t.kind = TokenKind.Identifier ∨ t.kind = TokenKind.Literal) :
    factor_loop (n + 1) left ctx
      = (parse_unary n ctx >>= fun r =>
          factor_loop n (Expr.Binary left TokenKind.Star r.1) r.2)
    ∧ parse 30 Context.new
        [tkn TokenKind.Literal "3", tkn TokenKind.Identifier "x", tkn TokenKind.EOF ""]
      = Except.ok ([Stmt.Expr (Expr.Binary (Expr.Literal "3") TokenKind.Star (Expr.Var "x"))],
          Context.mk
            [tkn TokenKind.Literal "3", tkn TokenKind.Identifier "x", tkn TokenKind.EOF ""]
            2 SymbolTable.new AngleUnit.Radians)
    ∧ parse 30 Context.new
        [tkn TokenKind.Literal "2", tkn TokenKind.Literal "3", tkn TokenKind.EOF ""]
      = Except.ok ([Stmt.Expr (Expr.Binary (Expr.Literal "2") TokenKind.Star (Expr.Literal "3"))],
          Context.mk
            [tkn TokenKind.Literal "2", tkn TokenKind.Literal "3", tkn TokenKind.EOF ""]
            2 SymbolTable.new AngleUnit.Radians)
    ∧ parse 30 Context.new
        [tkn TokenKind.Identifier "x", tkn TokenKind.Identifier "y", tkn TokenKind.EOF ""]
      = Except.ok ([Stmt.Expr (Expr.Binary (Expr.Var "x") TokenKind.Star (Expr.Var "y"))],
          Context.mk
            [tkn TokenKind.Identifier "x", tkn TokenKind.Identifier "y", tkn TokenKind.EOF ""]
            2 SymbolTable.new AngleUnit.Radians) := by
  refine ⟨?_, rfl, rfl, rfl⟩
  have h3 : match_token ctx TokenKind.Identifier = true
      ∨ match_token ctx TokenKind.Literal = true := by
    rcases hk with h | h
    · left
      unfold match_token
      rw [hp]
      simp [h]
    · right
      unfold match_token
      rw [hp]
      simp [h]
  have hmt : (match_token ctx TokenKind.Star || match_token ctx TokenKind.Slash
      || match_token ctx TokenKind.Identifier || match_token ctx TokenKind.Literal) = true := by
    rcases h3 with h3 | h3 <;> simp [h3]
  unfold factor_loop parse_unary
  simp only [mkP]
  rw [hmt]
  simp only [if_true]
  rw [peek_ok_of_get hp, except_bind_ok]
  rcases hk with h | h <;> rw [h]

/-- Witness for C6 at the concrete juxtaposition 3 x, with the literal 3
already consumed as the left operand. -/
theorem claim_c6_witness :
    factor_loop 31 (Expr.Literal "3") c6w_ctx
      = (parse_unary 30 c6w_ctx >>= fun r =>
          factor_loop 30 (Expr.Binary (Expr.Literal "3") TokenKind.Star r.1) r.2) :=
  (claim_c6 30 (Expr.Literal "3") c6w_ctx (tkn TokenKind.Identifier "x") rfl (Or.inl rfl)).1

/-- Claim C7: unary prefix minus binds more loosely than the exponent
operator — the input -2^2 parses as a Unary minus node wrapping the
Binary power node — and the exponent operator is right-associative, so
a^b^c parses as a^(b^c). -/
theorem claim_c7 :
    parse 30 Context.new c7a_tokens
      = Except.ok ([Stmt.Expr (Expr.Unary TokenKind.Minus
          (Expr.Binary (Expr.Literal "2") TokenKind.Power (Expr.Literal "2")))],
          Context.mk c7a_tokens 4 SymbolTable.new AngleUnit.Radians)
    ∧ parse 30 Context.new c7b_tokens
      = Except.ok ([Stmt.Expr (Expr.Binary (Expr.Var "a") TokenKind.Power
          (Expr.Binary (Expr.Var "b") TokenKind.Power (Expr.Var "c")))],
          Context.mk c7b_tokens 5 SymbolTable.new AngleUnit.Radians) :=
  ⟨rfl, rfl⟩

/-- Counterexample to C8 as stated: on the token sequence of
f(x) deg = 3 the parser returns CalcError.Unknown — the angle-unit
suffix wraps the call-shaped primary in a Unit node, so the declaration
reinterpretation sees a non-FnCall primary. -/
theorem claim_c8_counterexample :
    parse 40 Context.new c8x_tokens = Except.error (Fault.calcError CalcError.Unknown) := rfl

/-- Claim C8 (amended): the internal unknown branch is reachable, but
only in one way — whenever parse_identifier_stmt returns
CalcError.Unknown, the speculative primary parse succeeded, was
immediately followed by an equals sign, the right-hand-side expression
parsed, and the primary was not a FnCall node (for example because an
angle-unit suffix wrapped it in a Unit node). -/
theorem claim_c8_amended (n : Nat) (ctx : Context)
    (h : parse_identifier_stmt (n + 1) ctx = Except.error (Fault.calcError CalcError.Unknown)) :
    ∃ prim c1 te body c2,
      parse_primary n ctx = Except.ok (prim, c1)
      ∧ peek c1 = Except.ok te
      ∧ te.kind = TokenKind.Equals
      ∧ parse_expr n { c1 with pos := c1.pos + 1 } = Except.ok (body, c2)
      ∧ ∀ nm args, prim ≠ Expr.FnCall nm args := by
  unfold parse_identifier_stmt at h
  simp only [mkP] at h
  cases hp : (mkP n).parse_primary ctx with
  | error e =>
    rw [hp, except_error_bind] at h
    have hstable := (exprStable_mkP n).hPrimary ctx
    rw [hp] at hstable
    injection h with h
    exact absurd h hstable
  | ok pr =>
    obtain ⟨prim, c1⟩ := pr
    rw [hp, except_bind_ok] at h
    cases hpk : peek c1 with
    | error e =>
      rw [hpk, except_error_bind] at h
      injection h with h
      exact absurd h (peek_not_unknown hpk)
    | ok te =>
      rw [hpk, except_bind_ok] at h
      cases hteq : (te.kind == TokenKind.Equals) with
      | false =>
        rw [hteq] at h
        simp only [Bool.false_eq_true, if_false] at h
        cases hx : (mkP n).parse_expr { c1 with pos := ctx.pos } with
        | error e =>
          rw [hx, except_error_bind] at h
          have hstable := (exprStable_mkP n).hExpr { c1 with pos := ctx.pos }
          rw [hx] at hstable
          injection h with h
          exact absurd h hstable
        | ok r =>
          obtain ⟨e2, c2⟩ := r
          rw [hx, except_bind_ok] at h
          exact Except.noConfusion h
      | true =>
        rw [hteq] at h
        simp only [if_true] at h
        rw [advance_ok_of_get (get_of_peek_ok hpk), except_bind_ok] at h
        cases hb : (mkP n).parse_expr { c1 with pos := c1.pos + 1 } with
        | error e =>
          rw [hb, except_error_bind] at h
          have hstable := (exprStable_mkP n).hExpr { c1 with pos := c1.pos + 1 }
          rw [hb] at hstable
          injection h with h
          exact absurd h hstable
        | ok r =>
          obtain ⟨body, c2⟩ := r
          rw [hb, except_bind_ok] at h
          refine ⟨prim, c1, te, body, c2, hp, hpk, by simpa using hteq, hb, ?_⟩
          intro nm args hcontra
          subst hcontra
          exact Except.noConfusion h

/-- Witness for the amended C8 at the concrete statement f(x) deg = 3,
where parse_identifier_stmt does return CalcError.Unknown. -/
theorem claim_c8_witness :
    ∃ prim c1 te body c2,
      parse_primary 30 c8x_ctx = Except.ok (prim, c1)
      ∧ peek c1 = Except.ok te
      ∧ te.kind = TokenKind.Equals
      ∧ parse_expr 30 { c1 with pos := c1.pos + 1 } = Except.ok (body, c2)
      ∧ ∀ nm args, prim ≠ Expr.FnCall nm args :=
  claim_c8_amended 30 c8x_ctx rfl

/-- Claim C9: on the input of two opening pipe tokens followed only by
the end marker, parse does not return a CalcError at all: it fails with
an out-of-bounds token-index read at index 3 (the cursor having been
advanced two positions past the end marker at index 2), the embedding of
the Rust panic — so parse is not a total function into the CalcError
result type. -/
theorem claim_c9 :
    parse 30 Context.new c9_tokens = Except.error (Fault.indexOutOfBounds 3)
    ∧ (∀ c : CalcError, Fault.indexOutOfBounds 3 ≠ Fault.calcError c) := by
  constructor
  · rfl
  · intro c
    simp

/-- Claim C10: after the inner expression of a bar/ceil/floor
group-function shorthand, the next token is consumed unconditionally
without being checked against the matching closing delimiter: whenever
the opener maps to abs/ceil/floor and the inner expression parses, any
token whatsoever in the closing position is accepted and the FnCall is
produced without error, the cursor simply stepping over that token. -/
theorem claim_c10 (n : Nat) (ctx c1 c2 : Context) (t : Token) (nm : String) (e : Expr)
    (ct : Token)
    (hadv : advance ctx = Except.ok (t, c1))
    (hname : group_fn_name t.kind = Except.ok nm)
    (hexpr : parse_expr n c1 = Except.ok (e, c2))
    (hclose : c2.tokens.get? c2.pos = some ct) :
    parse_group_fn (n + 1) ctx
      = Except.ok (Expr.FnCall nm [e], { c2 with pos := c2.pos + 1 }) := by
  unfold parse_group_fn
  unfold parse_expr at hexpr
  simp only [mkP]
  rw [hadv, except_bind_ok]
  show (group_fn_name t.kind >>= _) = _
  rw [hname, except_bind_ok, hexpr, except_bind_ok]
  show (advance c2 >>= _) = _
  rw [advance_ok_of_get hclose, except_bind_ok]

/-- Witness for C10 at the concrete input where the absolute-value
opener is closed by a mismatched closing parenthesis, which is accepted
silently. -/
theorem claim_c10_witness :
    parse_group_fn 31 c10w_ctx
      = Except.ok (Expr.FnCall "abs" [Expr.Literal "1"],
          Context.mk c10w_tokens 3 SymbolTable.new AngleUnit.Radians) :=
  claim_c10 30 c10w_ctx (Context.mk c10w_tokens 1 SymbolTable.new AngleUnit.Radians)
    (Context.mk c10w_tokens 2 SymbolTable.new AngleUnit.Radians)
    (tkn TokenKind.Pipe "") "abs" (Expr.Literal "1") (tkn TokenKind.ClosedParenthesis "")
    rfl rfl rfl rfl

end Kalk
